import Mathlib

/-!
Shallow embedding of the scroll-driven circular text animation and the
media preload negotiator of `src/js/script.js`, with theorems settling
the specification claims.

Modelling conventions:
* JS numbers are modelled as rationals (`ℚ`) where the code only compares
  and selects constants (viewport widths, radii), and as reals (`ℝ`)
  where trigonometry is involved.
* A non-finite JS number (`NaN` or `±Infinity`) is modelled as `none` in
  `Option ℝ`: JS division by zero produces such a value, `Math.sin`/`Math.cos`
  of a non-finite value is `NaN`, and arithmetic on a `NaN` stays `NaN`,
  so `Option ℝ` with `none` absorbing is a faithful abstraction of the
  code paths reached here.
* The JS `%` operator is the truncated remainder (sign of the dividend),
  modelled by `jsRem` below.
-/

namespace AssetProject

/-! ## Radius mapper (src/js/script.js lines 536-542)

```js
function getPointRadius() {
  const screenWidth = window.innerWidth;
  if (screenWidth <= 480) return 70;
  if (screenWidth <= 768) return 75;
  if (screenWidth <= 1200) return 100;
  return 120;
}
```
-/

def getPointRadius (screenWidth : ℚ) : ℚ :=
  if screenWidth ≤ 480 then 70
  else if screenWidth ≤ 768 then 75
  else if screenWidth ≤ 1200 then 100
  else 120

/-! ## Media preload negotiator (src/js/script.js lines 103-155)

The negotiator is driven by the environment: whether the page runs from a
`file:` URL, whether the WebP probe reports support, and which image loads
succeed.  We model the environment by booleans and a success oracle
`loadOk : String → Bool`, and record the ordered list of image load
attempts, the settlement state of the returned promise, and the background
finally applied. -/

def webpPath : String := "./images/point_bg.webp"

def jpgPath : String := "./images/point_bg.jpg"

/-- Settlement state of the promise returned by the negotiator:
`resolved` and `rejected` are the two settled states; `pending` means no
`resolve`/`reject` call was ever made for the invocation. -/
inductive Outcome where
  | resolved
  | rejected
  | pending
deriving DecidableEq, Repr

structure PreloadResult where
  attempts : List String
  outcome : Outcome
  appliedBackground : Option String
deriving DecidableEq, Repr

/-- Model of the JS `String.prototype.includes` used at line 146. -/
def stringIncludes (s pattern : String) : Bool :=
  (List.range (s.length + 1)).any fun i => pattern.toList.isPrefixOf (s.toList.drop i)

/-- Model of `loadFallbackImage` (lines 103-107): one load attempt of the
fallback path; on success the background is applied (`onload`), on failure
nothing happens (no `onerror` handler is attached).  It never touches the
outer promise. -/
def loadFallbackImage (loadOk : String → Bool) (fallbackPath : String) :
    List String × Option String :=
  if loadOk fallbackPath then ([fallbackPath], some fallbackPath)
  else ([fallbackPath], none)

/-- Model of `aggressivePreloadImages` (lines 110-155).  The `file:` guard
returns early (an async function returning resolves its promise); otherwise
the chosen path is loaded, `onload` applies the background and resolves,
`onerror` either starts the single fallback (WebP case, leaving the outer
promise pending) or rejects (legacy case). -/
def aggressivePreloadImages (isFileProtocol webpSupported : Bool)
    (loadOk : String → Bool) : PreloadResult :=
  if isFileProtocol then ⟨[], Outcome.resolved, none⟩
  else
    let bgImagePath := if webpSupported then webpPath else jpgPath
    if loadOk bgImagePath then ⟨[bgImagePath], Outcome.resolved, some bgImagePath⟩
    else if webpSupported && stringIncludes bgImagePath ".webp" then
      let fb := loadFallbackImage loadOk jpgPath
      ⟨bgImagePath :: fb.1, Outcome.pending, fb.2⟩
    else ⟨[bgImagePath], Outcome.rejected, none⟩

/-! ## Scroll-to-pose projector (src/js/script.js lines 525-610)

The arithmetic of the projector lives in `ℝ`, except that JS division by
zero produces a non-finite number (`0/0` is `NaN`); `none : Option ℝ`
models a non-finite value, and every operation applied to it downstream
(`Math.sin`, `Math.cos`, multiplication, subtraction, negation) yields a
non-finite value again, so `Option.map`/`Option.bind` propagation is
faithful. -/

/-- JS division: `none` when the denominator is zero (the resulting JS
value is `NaN` or `±Infinity`, in either case non-finite). -/
noncomputable def jsDiv (a b : ℝ) : Option ℝ :=
  if b = 0 then none else some (a / b)

/-- Model of `const angle = (index / (totalTexts - 1)) * Math.PI`
(line 551) and of `const baseAngle = (index / (totalTexts - 1)) * Math.PI`
(line 578). -/
noncomputable def baseAngle (index totalTexts : ℕ) : Option ℝ :=
  (jsDiv index ((totalTexts : ℝ) - 1)).map (· * Real.pi)

/-- A pose as written to an element: `(y, z, rotateX)` =
(vertical offset, depth offset, rotation in degrees). -/
noncomputable def poseOfAngle (angle radius : ℝ) : ℝ × ℝ × ℝ :=
  (Real.sin angle * radius, Real.cos angle * radius, -((angle * 180) / Real.pi))

/-- Model of `initializePointTexts` for one element (lines 548-561): the
initial pose written by `gsap.set` from the base angle and the radius
freshly read from the viewport width. -/
noncomputable def setupPose (index totalTexts : ℕ) (radius : ℝ) : Option (ℝ × ℝ × ℝ) :=
  (baseAngle index totalTexts).map (poseOfAngle · radius)

/-- Model of lines 574-580:
`rotationProgress = progress * (totalTexts - 1)` and
`currentAngle = baseAngle - (rotationProgress * Math.PI) / (totalTexts - 1)`. -/
noncomputable def currentAngle (index totalTexts : ℕ) (progress : ℝ) : Option ℝ :=
  (baseAngle index totalTexts).bind fun b =>
    (jsDiv ((progress * ((totalTexts : ℝ) - 1)) * Real.pi) ((totalTexts : ℝ) - 1)).map
      fun d => b - d

/-- Model of the pose written by `gsap.set` on an update tick
(lines 582-598). -/
noncomputable def updatePose (index totalTexts : ℕ) (radius progress : ℝ) :
    Option (ℝ × ℝ × ℝ) :=
  (currentAngle index totalTexts progress).map (poseOfAngle · radius)

/-- JS truncation toward zero, as used by the `%` operator. -/
noncomputable def jsTrunc (x : ℝ) : ℤ :=
  if 0 ≤ x then ⌊x⌋ else ⌈x⌉

/-- JS remainder operator `a % b`: truncated remainder, sign of the
dividend. -/
noncomputable def jsRem (a b : ℝ) : ℝ :=
  a - b * jsTrunc (a / b)

/-- Model of line 588:
`normalizedAngle = ((currentAngle % (Math.PI * 2)) + Math.PI * 2) % (Math.PI * 2)`. -/
noncomputable def normalizedAngle (a : ℝ) : ℝ :=
  jsRem (jsRem a (Real.pi * 2) + Real.pi * 2) (Real.pi * 2)

/-- Model of line 590:
`isFocus = normalizedAngle < 0.3 || normalizedAngle > Math.PI * 2 - 0.3`. -/
def isFocus (a : ℝ) : Prop :=
  normalizedAngle a < 0.3 ∨ normalizedAngle a > Real.pi * 2 - 0.3

/-- Focus state of one element on an update tick: the focus class is added
exactly when `isFocus` holds of the element's current angle.  A non-finite
current angle never satisfies the comparisons (`NaN < x` and `NaN > x` are
both false in JS), hence `False` on `none`. -/
noncomputable def elemFocus (index totalTexts : ℕ) (progress : ℝ) : Prop :=
  (currentAngle index totalTexts progress).elim False isFocus

/-! ## Setup entry point and the resize/tick event machine

`initPointAnimation` (lines 525-610) guards on the presence of the `gsap`
and `ScrollTrigger` globals, collects at most four text elements, returns
silently when none exist, and otherwise writes the initial poses and
creates the scroll trigger.  The local `radius` variable (line 544) is
assigned once at setup; the shared `handleResize` handler (lines 236-246)
only refreshes AOS/ScrollTrigger and never re-assigns it. -/

structure InitResult where
  diagnostics : List String
  triggerCreated : Bool
  setupWrites : List (Option (ℝ × ℝ × ℝ))

/-- Model of `initPointAnimation`'s setup phase: `gsapDef`/`stDef` say
whether the `gsap` and `ScrollTrigger` globals are defined, `numFound` is
the number of matched `.point .ani_text p` nodes (sliced to at most 4),
`width` the viewport width at setup. -/
noncomputable def initPointAnimation (gsapDef stDef : Bool) (numFound : ℕ)
    (width : ℚ) : InitResult :=
  if gsapDef = false ∨ stDef = false then
    ⟨["GSAP or ScrollTrigger not loaded"], false, []⟩
  else
    let totalTexts := min numFound 4
    if totalTexts = 0 then ⟨[], false, []⟩
    else
      ⟨[], true,
        (List.range totalTexts).map fun i =>
          setupPose i totalTexts ((getPointRadius width : ℚ) : ℝ)⟩

/-- Projector state: the current viewport width and the captured `radius`
variable of line 544. -/
structure PAState where
  width : ℚ
  radius : ℚ

/-- State at the end of `initPointAnimation`: the radius is computed from
the setup-time viewport width. -/
def initState (w : ℚ) : PAState :=
  ⟨w, getPointRadius w⟩

inductive PAEvent where
  | resize (w : ℚ)
  | tick (progress : ℝ)

/-- Poses written by one `onUpdate` tick (lines 572-607), for the given
captured radius. -/
noncomputable def tickWrites (totalTexts : ℕ) (radius : ℚ) (progress : ℝ) :
    List (Option (ℝ × ℝ × ℝ)) :=
  (List.range totalTexts).map fun i => updatePose i totalTexts (radius : ℝ) progress

/-- One event step: a resize changes the viewport width but — per
`handleResize`, which only calls `AOS.refresh()` and
`ScrollTrigger.refresh()` — leaves the captured `radius` untouched; a tick
writes every element's pose from the captured radius and the delivered
progress, changing no state. -/
noncomputable def step (totalTexts : ℕ) (s : PAState) : PAEvent → PAState × List (Option (ℝ × ℝ × ℝ))
  | PAEvent.resize w => (⟨w, s.radius⟩, [])
  | PAEvent.tick p => (s, tickWrites totalTexts s.radius p)

/-- Run a sequence of events from the setup state. -/
noncomputable def run (totalTexts : ℕ) (w0 : ℚ) (evs : List PAEvent) : PAState :=
  evs.foldl (fun s e => (step totalTexts s e).1) (initState w0)

/-! ## Supporting lemmas -/

theorem jsDiv_of_ne {b : ℝ} (a : ℝ) (hb : b ≠ 0) : jsDiv a b = some (a / b) := by
  unfold jsDiv
  rw [if_neg hb]

theorem cast_sub_one_ne_zero {N : ℕ} (hN : 2 ≤ N) : ((N : ℝ) - 1) ≠ 0 := by
  have : (2 : ℝ) ≤ (N : ℝ) := by exact_mod_cast hN
  linarith

theorem baseAngle_of_two_le {N : ℕ} (hN : 2 ≤ N) (i : ℕ) :
    baseAngle i N = some (((i : ℝ) / ((N : ℝ) - 1)) * Real.pi) := by
  unfold baseAngle
  rw [jsDiv_of_ne _ (cast_sub_one_ne_zero hN)]
  rfl

theorem currentAngle_of_two_le {N : ℕ} (hN : 2 ≤ N) (i : ℕ) (p : ℝ) :
    currentAngle i N p
      = some (((i : ℝ) / ((N : ℝ) - 1)) * Real.pi - p * Real.pi) := by
  have h := cast_sub_one_ne_zero hN
  unfold currentAngle
  rw [baseAngle_of_two_le hN, jsDiv_of_ne _ h]
  simp only [Option.some_bind, Option.map_some']
  congr 2
  field_simp
  ring

theorem currentAngle_zero_eq_baseAngle {N : ℕ} (hN : 2 ≤ N) (i : ℕ) :
    currentAngle i N 0 = baseAngle i N := by
  rw [currentAngle_of_two_le hN, baseAngle_of_two_le hN]
  norm_num

theorem jsTrunc_of_nonneg {x : ℝ} (h : 0 ≤ x) : jsTrunc x = ⌊x⌋ := if_pos h

theorem jsRem_of_nonneg {a b : ℝ} (hb : 0 < b) (ha : 0 ≤ a) :
    jsRem a b = b * Int.fract (a / b) := by
  unfold jsRem
  rw [jsTrunc_of_nonneg (div_nonneg ha hb.le)]
  have h1 : b * Int.fract (a / b) = b * (a / b) - b * ⌊a / b⌋ := by
    rw [Int.fract]
    ring
  have h2 : b * (a / b) = a := by
    field_simp
  rw [h1, h2]

/-- The JS double-remainder idiom `((a % b) + b) % b` computes the
mathematical (floor) modulus for a positive modulus `b`. -/
theorem jsRem_double {a b : ℝ} (hb : 0 < b) :
    jsRem (jsRem a b + b) b = b * Int.fract (a / b) := by
  have hb' : b ≠ 0 := hb.ne'
  rcases le_or_lt 0 a with ha | ha
  · rw [jsRem_of_nonneg hb ha]
    have hf0 : 0 ≤ b * Int.fract (a / b) :=
      mul_nonneg hb.le (Int.fract_nonneg _)
    rw [jsRem_of_nonneg hb (by linarith)]
    congr 1
    have harg : (b * Int.fract (a / b) + b) / b = Int.fract (a / b) + 1 := by
      field_simp
      ring
    rw [harg, Int.fract_add_one, Int.fract_fract]
  · have hq : a / b < 0 := div_neg_of_neg_of_pos ha hb
    have htr : jsTrunc (a / b) = ⌈a / b⌉ := if_neg (not_le.mpr hq)
    rcases eq_or_ne (Int.fract (a / b)) 0 with hf | hf
    · -- an integer quotient: the first remainder is 0 and `jsRem b b = 0`
      have hfl : ((⌊a / b⌋ : ℤ) : ℝ) = a / b := by
        have h1 : a / b - ⌊a / b⌋ = Int.fract (a / b) := Int.self_sub_floor _
        rw [hf] at h1
        linarith
      have hceq : ⌈a / b⌉ = ⌊a / b⌋ := by
        rw [show a / b = ((⌊a / b⌋ : ℤ) : ℝ) from hfl.symm, Int.ceil_intCast,
          Int.floor_intCast]
      have hrem : jsRem a b = 0 := by
        unfold jsRem
        rw [htr, hceq, hfl]
        field_simp
      rw [hrem, zero_add, jsRem_of_nonneg hb hb.le, div_self hb', Int.fract_one,
        hf]
    · have hceil : ((⌈a / b⌉ : ℤ) : ℝ) = a / b + 1 - Int.fract (a / b) :=
        Int.ceil_eq_add_one_sub_fract hf
      have hrem : jsRem a b = b * Int.fract (a / b) - b := by
        unfold jsRem
        rw [htr, hceil]
        have h2 : b * (a / b) = a := by field_simp
        nlinarith [h2]
      have harg : jsRem a b + b = b * Int.fract (a / b) := by
        rw [hrem]
        ring
      rw [harg, jsRem_of_nonneg hb (mul_nonneg hb.le (Int.fract_nonneg _))]
      congr 1
      rw [mul_div_cancel_left₀ _ hb', Int.fract_fract]

theorem normalizedAngle_eq (a : ℝ) :
    normalizedAngle a = (Real.pi * 2) * Int.fract (a / (Real.pi * 2)) :=
  jsRem_double (by positivity)

theorem normalizedAngle_nonneg (a : ℝ) : 0 ≤ normalizedAngle a := by
  rw [normalizedAngle_eq]
  exact mul_nonneg (by positivity) (Int.fract_nonneg _)

theorem normalizedAngle_lt (a : ℝ) : normalizedAngle a < Real.pi * 2 := by
  rw [normalizedAngle_eq]
  have h1 : Int.fract (a / (Real.pi * 2)) < 1 := Int.fract_lt_one _
  have h2 : (0 : ℝ) < Real.pi * 2 := by positivity
  nlinarith

/-- The focus predicate holds exactly when the angle is within 0.3 radians
of some integer multiple of 2π. -/
theorem isFocus_iff_near_multiple (a : ℝ) :
    isFocus a ↔ ∃ m : ℤ, |a - (Real.pi * 2) * m| < 0.3 := by
  have hTpos : (0 : ℝ) < Real.pi * 2 := by positivity
  have hT3 : (0.3 : ℝ) < Real.pi * 2 := by
    have := Real.pi_gt_three
    linarith
  have hkey : a - (Real.pi * 2) * (⌊a / (Real.pi * 2)⌋ : ℤ) = normalizedAngle a := by
    rw [normalizedAngle_eq]
    have h1 : ((⌊a / (Real.pi * 2)⌋ : ℤ) : ℝ) + Int.fract (a / (Real.pi * 2))
        = a / (Real.pi * 2) := Int.floor_add_fract _
    have h2 : (Real.pi * 2) * (a / (Real.pi * 2)) = a := by field_simp
    nlinarith [h1, h2]
  have hn0 : 0 ≤ normalizedAngle a := normalizedAngle_nonneg a
  have hn1 : normalizedAngle a < Real.pi * 2 := normalizedAngle_lt a
  constructor
  · rintro (h | h)
    · exact ⟨⌊a / (Real.pi * 2)⌋, by
        rw [abs_of_nonneg (by linarith [hkey])]
        linarith [hkey]⟩
    · refine ⟨⌊a / (Real.pi * 2)⌋ + 1, ?_⟩
      have heq : a - (Real.pi * 2) * ((⌊a / (Real.pi * 2)⌋ + 1 : ℤ) : ℝ)
          = normalizedAngle a - Real.pi * 2 := by
        push_cast
        linarith [hkey]
      rw [heq, abs_of_nonpos (by linarith)]
      linarith
  · rintro ⟨m, hm⟩
    have hdiff : a - (Real.pi * 2) * m
        = normalizedAngle a + (Real.pi * 2) * ((⌊a / (Real.pi * 2)⌋ - m : ℤ) : ℝ) := by
      push_cast
      linarith [hkey]
    rcases lt_trichotomy (⌊a / (Real.pi * 2)⌋ - m) 0 with hneg | hzero | hpos
    · right
      have hk1 : ((⌊a / (Real.pi * 2)⌋ - m : ℤ) : ℝ) ≤ -1 := by
        exact_mod_cast (by omega : ⌊a / (Real.pi * 2)⌋ - m ≤ -1)
      have hmul : (Real.pi * 2) * ((⌊a / (Real.pi * 2)⌋ - m : ℤ) : ℝ) ≤ -(Real.pi * 2) := by
        nlinarith
      have hlow : -(0.3 : ℝ) < a - (Real.pi * 2) * m := (abs_lt.mp hm).1
      have : normalizedAngle a > Real.pi * 2 - 0.3 := by linarith [hdiff]
      exact this
    · left
      have hz : ((⌊a / (Real.pi * 2)⌋ - m : ℤ) : ℝ) = 0 := by exact_mod_cast hzero
      have heq : a - (Real.pi * 2) * m = normalizedAngle a := by
        rw [hdiff, hz]
        ring
      rw [heq, abs_of_nonneg hn0] at hm
      exact hm
    · exfalso
      have hk1 : (1 : ℝ) ≤ ((⌊a / (Real.pi * 2)⌋ - m : ℤ) : ℝ) := by
        exact_mod_cast hpos
      have hmul : Real.pi * 2 ≤ (Real.pi * 2) * ((⌊a / (Real.pi * 2)⌋ - m : ℤ) : ℝ) := by
        nlinarith
      have hup := (abs_lt.mp hm).2
      linarith [hdiff]

/-! ## Claim theorems for the computable components -/

theorem stringIncludes_webp : stringIncludes webpPath ".webp" = true := by decide

theorem loadFallbackImage_fst (loadOk : String → Bool) (p : String) :
    (loadFallbackImage loadOk p).1 = [p] := by
  unfold loadFallbackImage
  split <;> rfl

/-- C5: the radius mapper is a pure total function of viewport width with
inclusive ascending thresholds, first match wins, and takes the documented
values at the boundary widths. -/
theorem getPointRadius_breakpoints :
    (∀ w : ℚ, (w ≤ 480 → getPointRadius w = 70) ∧
      (480 < w → w ≤ 768 → getPointRadius w = 75) ∧
      (768 < w → w ≤ 1200 → getPointRadius w = 100) ∧
      (1200 < w → getPointRadius w = 120)) ∧
    getPointRadius 480 = 70 ∧ getPointRadius 481 = 75 ∧
    getPointRadius 768 = 75 ∧ getPointRadius 769 = 100 ∧
    getPointRadius 1200 = 100 ∧ getPointRadius 1201 = 120 := by
  refine ⟨fun w => ⟨?_, ?_, ?_, ?_⟩, by decide, by decide, by decide,
    by decide, by decide, by decide⟩ <;>
    intros <;> simp only [getPointRadius] <;> split_ifs <;> first | rfl | linarith

/-- C5 witness: the piecewise characterization evaluated at width 600. -/
theorem getPointRadius_breakpoints_witness :
    (480 : ℚ) < 600 ∧ (600 : ℚ) ≤ 768 ∧ getPointRadius 600 = 75 := by
  refine ⟨by norm_num, by norm_num, ?_⟩
  exact (getPointRadius_breakpoints.1 600).2.1 (by norm_num) (by norm_num)

/-- C10: the radius mapper is monotone non-decreasing in viewport width and
its range is exactly the set of the four breakpoint radii. -/
theorem getPointRadius_monotone_range :
    Monotone getPointRadius ∧
      Set.range getPointRadius = {70, 75, 100, 120} := by
  constructor
  · intro w1 w2 h
    simp only [getPointRadius]
    split_ifs <;> linarith
  · ext r
    constructor
    · rintro ⟨w, rfl⟩
      simp only [getPointRadius]
      split_ifs <;> simp
    · intro hr
      rcases hr with h | h | h | h
      · exact ⟨0, by rw [h]; rfl⟩
      · exact ⟨500, by rw [h]; rfl⟩
      · exact ⟨1000, by rw [h]; rfl⟩
      · exact ⟨1300, by rw [h]; rfl⟩

/-- C6: with the probe reporting WebP unsupported the modern path is never
attempted (the legacy path is chosen directly), and with the probe
reporting supported and the primary WebP load failing, exactly one
fallback load of the legacy path is issued and nothing further. -/
theorem preload_probe_gates_attempts (loadOk : String → Bool) :
    (aggressivePreloadImages false false loadOk).attempts = [jpgPath] ∧
    (loadOk webpPath = false →
      (aggressivePreloadImages false true loadOk).attempts = [webpPath, jpgPath]) := by
  constructor
  · cases hj : loadOk jpgPath <;> simp [aggressivePreloadImages, hj]
  · intro hfail
    simp [aggressivePreloadImages, hfail, stringIncludes_webp, loadFallbackImage_fst]

/-- C6 witness: with WebP support and a primary load that fails while the
legacy load succeeds, the attempt list is exactly [webp, jpg]. -/
theorem preload_probe_gates_attempts_witness :
    (fun p => decide (p = jpgPath)) webpPath = false ∧
    (aggressivePreloadImages false true fun p => decide (p = jpgPath)).attempts
      = [webpPath, jpgPath] := by
  refine ⟨by decide, ?_⟩
  exact (preload_probe_gates_attempts fun p => decide (p = jpgPath)).2 (by decide)

/-- C7 counterexample: when WebP is supported and both the primary and the
fallback load fail, the invocation ends with the promise still pending —
not rejected as the claim states. -/
theorem preload_fallback_failure_not_rejected :
    (aggressivePreloadImages false true fun _ => false).outcome = Outcome.pending ∧
    (aggressivePreloadImages false true fun _ => false).outcome ≠ Outcome.rejected := by
  constructor <;> decide

/-- C7 amended: when the directly-chosen legacy path fails the promise is
rejected with no retry; when the WebP fallback path fails no further load
is attempted, but the promise remains pending (the failure is not
reported to the caller). -/
theorem preload_failure_reporting (loadOk : String → Bool) :
    (loadOk jpgPath = false →
      aggressivePreloadImages false false loadOk = ⟨[jpgPath], Outcome.rejected, none⟩) ∧
    (loadOk webpPath = false → loadOk jpgPath = false →
      aggressivePreloadImages false true loadOk
        = ⟨[webpPath, jpgPath], Outcome.pending, none⟩) := by
  constructor
  · intro hj
    simp [aggressivePreloadImages, hj]
  · intro hw hj
    simp [aggressivePreloadImages, loadFallbackImage, hw, hj, stringIncludes_webp]

/-- C7 amended witness: both loads failing yields the pending outcome with
both attempts recorded and no background applied. -/
theorem preload_failure_reporting_witness :
    ((fun _ => false : String → Bool) jpgPath = false) ∧
    aggressivePreloadImages false true (fun _ => false)
      = ⟨[webpPath, jpgPath], Outcome.pending, none⟩ := by
  refine ⟨rfl, ?_⟩
  exact (preload_failure_reporting fun _ => false).2 rfl rfl

/-! ## Claim theorems for the pose projector -/

/-- C2 (evaluating the code at the failing input): with a single text
element the base-angle computation divides 0 by 0, so the setup and the
progress-0 update both write a non-finite (NaN) pose rather than the
angle-0 pose `(0, radius, 0)`; there is no guard in the code. -/
theorem pose_single_element_nonfinite :
    setupPose 0 1 120 = none ∧ updatePose 0 1 120 0 = none ∧
      ∀ r : ℝ, setupPose 0 1 r ≠ some (0, r, 0) := by
  have hb : baseAngle 0 1 = none := by
    unfold baseAngle jsDiv
    simp
  refine ⟨?_, ?_, ?_⟩
  · unfold setupPose
    rw [hb]
    rfl
  · unfold updatePose currentAngle
    rw [hb]
    rfl
  · intro r
    unfold setupPose
    rw [hb]
    simp

/-- C3: for every N ≥ 2, index below N and progress in [0,1], the tick
angle equals baseAngle − progress·π with baseAngle = (index/(N−1))·π, and
the pose computed at progress 0 coincides with the setup pose for the same
radius. -/
theorem currentAngle_formula_and_initial_pose {N : ℕ} (hN : 2 ≤ N) (i : ℕ)
    (hi : i < N) (r p : ℝ) (hp0 : 0 ≤ p) (hp1 : p ≤ 1) :
    currentAngle i N p
        = some (((i : ℝ) / ((N : ℝ) - 1)) * Real.pi - p * Real.pi) ∧
      updatePose i N r 0 = setupPose i N r := by
  refine ⟨currentAngle_of_two_le hN i p, ?_⟩
  unfold updatePose setupPose
  rw [currentAngle_zero_eq_baseAngle hN]

/-- C3 witness: the angle formula and the progress-0 pose identity at
N = 4, index 1, radius 100, progress 1/2. -/
theorem currentAngle_formula_witness :
    2 ≤ 4 ∧ 1 < 4 ∧ (0 : ℝ) ≤ 1 / 2 ∧ (1 / 2 : ℝ) ≤ 1 ∧
      (currentAngle 1 4 (1 / 2)
          = some ((((1 : ℕ) : ℝ) / (((4 : ℕ) : ℝ) - 1)) * Real.pi
              - (1 / 2) * Real.pi) ∧
        updatePose 1 4 100 0 = setupPose 1 4 100) :=
  ⟨by norm_num, by norm_num, by norm_num, by norm_num,
    currentAngle_formula_and_initial_pose (by norm_num) 1 (by norm_num) 100
      (1 / 2) (by norm_num) (by norm_num)⟩

/-- C4: the double-remainder normalization always lands in [0, 2π), and
the focus window behaves as documented for N = 4 at progress 0: element 0
(angle 0) is in focus, element 3 (angle π) is not. -/
theorem normalizedAngle_range_and_focus :
    (∀ a : ℝ, 0 ≤ normalizedAngle a ∧ normalizedAngle a < Real.pi * 2) ∧
      elemFocus 0 4 0 ∧ ¬elemFocus 3 4 0 := by
  refine ⟨fun a => ⟨normalizedAngle_nonneg a, normalizedAngle_lt a⟩, ?_, ?_⟩
  · unfold elemFocus
    rw [currentAngle_of_two_le (by norm_num) 0 0]
    rw [Option.elim_some]
    have hv : (((0 : ℕ) : ℝ) / (((4 : ℕ) : ℝ) - 1)) * Real.pi - 0 * Real.pi
        = 0 := by
      norm_num
    rw [hv]
    left
    rw [normalizedAngle_eq, zero_div, Int.fract_zero]
    norm_num
  · unfold elemFocus
    rw [currentAngle_of_two_le (by norm_num) 3 0]
    rw [Option.elim_some]
    have hv : (((3 : ℕ) : ℝ) / (((4 : ℕ) : ℝ) - 1)) * Real.pi - 0 * Real.pi
        = Real.pi := by
      norm_num
    rw [hv]
    have hval : normalizedAngle Real.pi = Real.pi := by
      rw [normalizedAngle_eq]
      have hhalf : Real.pi / (Real.pi * 2) = 1 / 2 := by
        rw [div_eq_iff (by positivity : Real.pi * 2 ≠ 0)]
        ring
      rw [hhalf, Int.fract_eq_self.mpr ⟨by norm_num, by norm_num⟩]
      ring
    intro h
    rcases h with h | h <;> rw [hval] at h <;>
      [skip; skip] <;> nlinarith [Real.pi_gt_three]

/-- C9: for N = 4 adjacent elements' current angles differ by exactly π/3
at every progress value, and since π/3 exceeds the 0.6-radian total focus
window, at most one of the four elements is in focus on any tick. -/
theorem focus_at_most_one (p : ℝ) (i j : ℕ) (hi : i < 4) (hj : j < 4)
    (hij : i ≠ j) :
    (∀ k : ℕ, k + 1 < 4 →
        ∃ a, currentAngle k 4 p = some a ∧
          currentAngle (k + 1) 4 p = some (a + Real.pi / 3)) ∧
      ¬(elemFocus i 4 p ∧ elemFocus j 4 p) := by
  constructor
  · intro k hk
    refine ⟨((k : ℝ) / (((4 : ℕ) : ℝ) - 1)) * Real.pi - p * Real.pi,
      currentAngle_of_two_le (by norm_num) k p, ?_⟩
    rw [currentAngle_of_two_le (by norm_num) (k + 1) p]
    congr 1
    push_cast
    ring
  · rintro ⟨hfi, hfj⟩
    unfold elemFocus at hfi hfj
    rw [currentAngle_of_two_le (by norm_num) i p, Option.elim_some] at hfi
    rw [currentAngle_of_two_le (by norm_num) j p, Option.elim_some] at hfj
    obtain ⟨mi, hmi⟩ := (isFocus_iff_near_multiple _).mp hfi
    obtain ⟨mj, hmj⟩ := (isFocus_iff_near_multiple _).mp hfj
    have hsum : |((((i : ℝ) / (((4 : ℕ) : ℝ) - 1)) * Real.pi - p * Real.pi)
          - (Real.pi * 2) * mi)
        - ((((j : ℝ) / (((4 : ℕ) : ℝ) - 1)) * Real.pi - p * Real.pi)
          - (Real.pi * 2) * mj)| < 0.6 := by
      calc |_| ≤ |(((i : ℝ) / (((4 : ℕ) : ℝ) - 1)) * Real.pi - p * Real.pi)
            - (Real.pi * 2) * mi|
          + |(((j : ℝ) / (((4 : ℕ) : ℝ) - 1)) * Real.pi - p * Real.pi)
            - (Real.pi * 2) * mj| := abs_sub _ _
        _ < 0.3 + 0.3 := add_lt_add hmi hmj
        _ = 0.6 := by norm_num
    have hd : ((i : ℤ) - j - 6 * (mi - mj)) ≠ 0 := by omega
    have heq : ((((i : ℝ) / (((4 : ℕ) : ℝ) - 1)) * Real.pi - p * Real.pi)
          - (Real.pi * 2) * mi)
        - ((((j : ℝ) / (((4 : ℕ) : ℝ) - 1)) * Real.pi - p * Real.pi)
          - (Real.pi * 2) * mj)
        = (Real.pi / 3) * (((i : ℤ) - j - 6 * (mi - mj) : ℤ) : ℝ) := by
      push_cast
      ring
    rw [heq, abs_mul] at hsum
    have habs1 : (1 : ℝ) ≤ |(((i : ℤ) - j - 6 * (mi - mj) : ℤ) : ℝ)| := by
      have h1 : (1 : ℤ) ≤ |(i : ℤ) - j - 6 * (mi - mj)| := Int.one_le_abs hd
      calc (1 : ℝ) = ((1 : ℤ) : ℝ) := by norm_num
        _ ≤ ((|(i : ℤ) - j - 6 * (mi - mj)| : ℤ) : ℝ) := by exact_mod_cast h1
        _ = |(((i : ℤ) - j - 6 * (mi - mj) : ℤ) : ℝ)| := by push_cast; rfl
    have hpi3 : |Real.pi / 3| = Real.pi / 3 := abs_of_pos (by positivity)
    rw [hpi3] at hsum
    nlinarith [Real.pi_gt_three, habs1, hsum]

/-- C9 witness: at progress 0, elements 1 and 2 are not both in focus. -/
theorem focus_at_most_one_witness :
    1 < 4 ∧ 2 < 4 ∧ 1 ≠ 2 ∧
      ((∀ k : ℕ, k + 1 < 4 →
          ∃ a, currentAngle k 4 0 = some a ∧
            currentAngle (k + 1) 4 0 = some (a + Real.pi / 3)) ∧
        ¬(elemFocus 1 4 0 ∧ elemFocus 2 4 0)) :=
  ⟨by norm_num, by norm_num, by norm_num,
    focus_at_most_one 0 1 2 (by norm_num) (by norm_num) (by norm_num)⟩

/-- C8: when the gsap or ScrollTrigger global is undefined, the setup
entry point emits the diagnostic, creates no scroll trigger and writes no
pose. -/
theorem initPointAnimation_missing_collaborator (gsapDef stDef : Bool)
    (numFound : ℕ) (w : ℚ) (h : gsapDef = false ∨ stDef = false) :
    initPointAnimation gsapDef stDef numFound w
      = ⟨["GSAP or ScrollTrigger not loaded"], false, []⟩ := by
  unfold initPointAnimation
  rw [if_pos h]

/-- C8 witness: gsap undefined while ScrollTrigger is defined yields the
diagnostic no-op. -/
theorem initPointAnimation_missing_collaborator_witness :
    (false = false ∨ true = false) ∧
      initPointAnimation false true 4 1300
        = ⟨["GSAP or ScrollTrigger not loaded"], false, []⟩ :=
  ⟨Or.inl rfl,
    initPointAnimation_missing_collaborator false true 4 1300 (Or.inl rfl)⟩

/-- C1 counterexample: setup at width 1300 captures radius 120; after a
resize to width 400 (whose radius is 70, a breakpoint crossing) the next
tick still writes poses computed from radius 120, not from the new
viewport width's radius. -/
theorem tick_after_resize_uses_stale_radius :
    getPointRadius 400 = 70 ∧ getPointRadius 1300 = 120 ∧
      (step 4 (run 4 1300 [PAEvent.resize 400]) (PAEvent.tick 0)).2
        ≠ tickWrites 4 (getPointRadius 400) 0 := by
  have hup : ∀ r : ℚ, updatePose 0 4 (r : ℝ) 0 = some (0, (r : ℝ), 0) := by
    intro r
    unfold updatePose
    rw [currentAngle_of_two_le (by norm_num) 0 0]
    have hv : (((0 : ℕ) : ℝ) / (((4 : ℕ) : ℝ) - 1)) * Real.pi - 0 * Real.pi
        = 0 := by
      norm_num
    rw [Option.map_some', hv]
    unfold poseOfAngle
    rw [Real.sin_zero, Real.cos_zero]
    norm_num
  refine ⟨by decide, by decide, ?_⟩
  intro h
  have hrun : run 4 1300 [PAEvent.resize 400] = ⟨400, getPointRadius 1300⟩ := rfl
  rw [hrun] at h
  have hstep : (step 4 (⟨400, getPointRadius 1300⟩ : PAState) (PAEvent.tick 0)).2
      = tickWrites 4 (getPointRadius 1300) 0 := rfl
  rw [hstep] at h
  have h0 := congrArg List.head? h
  have e1 : (tickWrites 4 (getPointRadius 1300) 0).head?
      = some (updatePose 0 4 ((getPointRadius 1300 : ℚ) : ℝ) 0) := rfl
  have e2 : (tickWrites 4 (getPointRadius 400) 0).head?
      = some (updatePose 0 4 ((getPointRadius 400 : ℚ) : ℝ) 0) := rfl
  rw [e1, e2, hup, hup] at h0
  simp only [Option.some.injEq, Prod.mk.injEq] at h0
  have h120 : ((getPointRadius 1300 : ℚ) : ℝ) = 120 := by
    norm_num [getPointRadius]
  have h70 : ((getPointRadius 400 : ℚ) : ℝ) = 70 := by
    norm_num [getPointRadius]
  rw [h120, h70] at h0
  norm_num at h0

/-- C1 amended: a viewport resize does not recompute the captured radius;
after any sequence of resizes and ticks, a tick's written poses are the
pure function of (element count, setup-time radius, progress), so
re-deriving a pose at any progress value reproduces the same result. -/
theorem tick_writes_pure_of_setup_radius (N : ℕ) (w0 : ℚ)
    (evs : List PAEvent) (p : ℝ) :
    (run N w0 evs).radius = getPointRadius w0 ∧
      (step N (run N w0 evs) (PAEvent.tick p)).2
        = tickWrites N (getPointRadius w0) p := by
  have hrad : ∀ (l : List PAEvent) (s : PAState),
      (l.foldl (fun s e => (step N s e).1) s).radius = s.radius := by
    intro l
    induction l with
    | nil => intro s; rfl
    | cons e t ih =>
      intro s
      have hfold : (List.foldl (fun s e => (step N s e).1) s (e :: t))
          = List.foldl (fun s e => (step N s e).1) ((step N s e).1) t := rfl
      rw [hfold, ih]
      cases e <;> rfl
  have h1 : (run N w0 evs).radius = getPointRadius w0 := by
    unfold run
    rw [hrad]
    rfl
  refine ⟨h1, ?_⟩
  have h2 : (step N (run N w0 evs) (PAEvent.tick p)).2
      = tickWrites N (run N w0 evs).radius p := rfl
  rw [h2, h1]

end AssetProject
